import Mathlib

/-!
# go-fcm-notifier: a shallow embedding of `fcmnotify.go`

The Go package keeps one request body (`FcmMsg`) inside an `FcmNotifier`, fills it
through chained setters and posts it with `Send`.

Conventions of the embedding.

* Go `int` is `Int`; no arithmetic is done on it, only comparisons and stores.
* `[]string` is a reference type in Go.  The backing arrays live in a `Heap`, a
  slice value is a window `(arr, off, len)` on one of them and the nil slice is
  `none`, so that aliasing between the caller's list and the stored list can be
  expressed.
* A method with a pointer receiver is a function from the receiver's state before
  the call to its state after the call.
* What the Go standard library does (`encoding/json`, `net/http`, `io/ioutil`) is
  modelled next to the code that calls it; each such definition says which library
  function it stands for.
-/

namespace FcmNotify

/-! ## Errors and Go values -/

/-- Go `error` values that `Send` can hand back, by origin. -/
inductive GoError where
  /-- The `*json.UnsupportedTypeError` of `json.Marshal`; the argument is the Go kind. -/
  | unsupportedType (kind : String)
  /-- The `*json.SyntaxError` of `json.Unmarshal`. -/
  | syntaxError
  /-- The `*json.UnmarshalTypeError`: JSON value `value` does not fit field `field`. -/
  | unmarshalType (value : String) (field : String)
  /-- An error of `net/url.Parse`, returned by `http.NewRequest`. -/
  | url (msg : String)
  /-- An error of `(*http.Client).Do`. -/
  | transport (msg : String)
  /-- An error of `ioutil.ReadAll` on the response body. -/
  | read (msg : String)
  deriving DecidableEq, Repr

/-- The dynamic values an `interface{}` may hold, as far as the encoder tells them
apart: nil, booleans, integers, strings, `[]interface{}`, `map[string]interface{}`
(its entries, keys distinct), and the kinds `encoding/json` refuses (channels and
functions). -/
inductive GoValue where
  | nil
  | bool (b : Bool)
  | int (i : Int)
  | str (s : String)
  | slice (xs : List GoValue)
  | map (kvs : List (String × GoValue))
  | chan
  | func

/-! ## Slices of strings -/

/-- The backing arrays of all `[]string` values; an array's address is its index. -/
abbrev Heap := List (List String)

/-- A non-nil `[]string`: `len` elements of array `arr` starting at `off`. -/
structure StringSlice where
  arr : Nat
  off : Nat
  len : Nat
  deriving DecidableEq, Repr

/-- Go `len(s)`; the nil slice has length 0. -/
def sliceLen : Option StringSlice → Nat
  | none => 0
  | some s => s.len

/-- The elements seen through a slice, in order. -/
def Heap.read (h : Heap) : Option StringSlice → List String
  | none => []
  | some s => ((h.getD s.arr []).drop s.off).take s.len

/-- A slice lies inside an allocated array. -/
def Heap.valid (h : Heap) : Option StringSlice → Prop
  | none => True
  | some s => s.arr < h.length ∧ s.off + s.len ≤ (h.getD s.arr []).length

/-- Go `make([]string, n)`: a fresh array of `n` empty strings and the slice on it. -/
def Heap.make (h : Heap) (n : Nat) : Heap × StringSlice :=
  (h ++ [List.replicate n ""], { arr := h.length, off := 0, len := n })

/-- Overwrite `a[off .. off + vs.length)` with `vs`. -/
def writeRange (a : List String) (off : Nat) (vs : List String) : List String :=
  a.take off ++ vs ++ a.drop (off + vs.length)

/-- Go builtin `copy(dst, src)`: copies `min(len(dst), len(src))` elements. -/
def Heap.copy (h : Heap) (dst src : Option StringSlice) : Heap :=
  match dst with
  | none => h
  | some d =>
    let vs := (h.read src).take (min d.len (sliceLen src))
    h.set d.arr (writeRange (h.getD d.arr []) d.off vs)

/-- Go `s[i] = v`; `none` is the index-out-of-range panic. -/
def Heap.store (h : Heap) (s : Option StringSlice) (i : Nat) (v : String) : Option Heap :=
  match s with
  | none => none
  | some s =>
    if i < s.len then some (h.set s.arr ((h.getD s.arr []).set (s.off + i) v)) else none

/-! ## The data model -/

/-- Go `MaxTTL`: 4 weeks, in seconds. -/
def MaxTTL : Int := 2419200

/-- Go `NotificationPayload`. -/
structure NotificationPayload where
  Title : String := ""
  Body : String := ""
  Icon : String := ""
  Sound : String := ""
  Badge : String := ""
  Tag : String := ""
  Color : String := ""
  ClickAction : String := ""
  BodyLocKey : String := ""
  BodyLocArgs : String := ""
  TitleLocKey : String := ""
  TitleLocArgs : String := ""
  deriving DecidableEq, Repr

/-- Go `FcmMsg`, the body of the POST; the defaults are Go's zero values. -/
structure FcmMsg where
  Data : GoValue := GoValue.nil
  To : String := ""
  RegistrationIds : Option StringSlice := none
  CollapseKey : String := ""
  Priority : String := ""
  Notification : NotificationPayload := {}
  ContentAvailable : Bool := false
  TimeToLive : Int := 0
  RestrictedPackageName : String := ""
  DryRun : Bool := false
  Condition : String := ""

/-- A `map[string]string`: `none` is the nil map, otherwise its entries. -/
abbrev StringMap := Option (List (String × String))

/-- Go `SendResponse`; the defaults are Go's zero values (`none` is the nil slice). -/
structure SendResponse where
  Ok : Bool := false
  StatusCode : Int := 0
  MulticastId : Int := 0
  Success : Int := 0
  Fail : Int := 0
  Canonical_ids : Int := 0
  Results : Option (List StringMap) := none
  MsgId : Int := 0
  Err : String := ""
  deriving DecidableEq, Repr

/-! ## `encoding/json`: values and the encoder -/

/-- A JSON text as the tree it denotes.  Object members keep their order, a
number keeps its literal. -/
inductive Json where
  | null
  | bool (b : Bool)
  | num (lit : String)
  | str (s : String)
  | arr (xs : List Json)
  | obj (kvs : List (String × Json))

/-- Byte-wise order of strings (code point order, which UTF-8 preserves). -/
def lexLt : List Char → List Char → Bool
  | [], [] => false
  | [], _ :: _ => true
  | _ :: _, [] => false
  | a :: as, b :: bs =>
    if a.toNat < b.toNat then true
    else if b.toNat < a.toNat then false
    else lexLt as bs

/-- Insert a member before the first member with a larger key. -/
def insertMember (kv : String × Json) : List (String × Json) → List (String × Json)
  | [] => [kv]
  | x :: xs => if lexLt kv.1.data x.1.data then kv :: x :: xs else x :: insertMember kv xs

/-- The encoder writes the entries of a map sorted by key. -/
def sortMembers : List (String × Json) → List (String × Json)
  | [] => []
  | x :: xs => insertMember x (sortMembers xs)

mutual
/-- The encoding of a dynamic value by `json.Marshal`: channels and functions are
an `UnsupportedTypeError`, nil is `null`. -/
def encodeValue : GoValue → Except GoError Json
  | .nil => .ok .null
  | .bool b => .ok (.bool b)
  | .int i => .ok (.num (toString i))
  | .str s => .ok (.str s)
  | .slice xs =>
    match encodeElems xs with
    | .error e => .error e
    | .ok js => .ok (.arr js)
  | .map kvs =>
    match encodeEntries kvs with
    | .error e => .error e
    | .ok js => .ok (.obj (sortMembers js))
  | .chan => .error (.unsupportedType "chan")
  | .func => .error (.unsupportedType "func")
/-- The elements of a slice, in order; the first failure aborts. -/
def encodeElems : List GoValue → Except GoError (List Json)
  | [] => .ok []
  | x :: xs =>
    match encodeValue x with
    | .error e => .error e
    | .ok j =>
      match encodeElems xs with
      | .error e => .error e
      | .ok js => .ok (j :: js)
/-- The entries of a map; the first failure aborts. -/
def encodeEntries : List (String × GoValue) → Except GoError (List (String × Json))
  | [] => .ok []
  | (k, v) :: kvs =>
    match encodeValue v with
    | .error e => .error e
    | .ok j =>
      match encodeEntries kvs with
      | .error e => .error e
      | .ok js => .ok ((k, j) :: js)
end

/-- A string field tagged `omitempty`: left out when its length is 0. -/
def omitEmptyString (key : String) (v : String) : List (String × Json) :=
  if v = "" then [] else [(key, Json.str v)]

/-- A bool field tagged `omitempty`: left out when false. -/
def omitEmptyBool (key : String) (v : Bool) : List (String × Json) :=
  if v = false then [] else [(key, Json.bool v)]

/-- An int field tagged `omitempty`: left out when 0. -/
def omitEmptyInt (key : String) (v : Int) : List (String × Json) :=
  if v = 0 then [] else [(key, Json.num (toString v))]

/-- A `[]string` field tagged `omitempty`: left out when its length is 0. -/
def omitEmptyStrings (h : Heap) (key : String) (v : Option StringSlice) : List (String × Json) :=
  if sliceLen v = 0 then [] else [(key, Json.arr ((h.read v).map Json.str))]

/-- An `interface{}` field tagged `omitempty`: left out when it is the nil
interface, otherwise the encoding of the value it holds. -/
def omitEmptyInterface (key : String) : GoValue → Except GoError (List (String × Json))
  | .nil => .ok []
  | v =>
    match encodeValue v with
    | .error e => .error e
    | .ok j => .ok [(key, j)]

/-- The encoding of a `NotificationPayload` value: its non-empty fields in
declaration order. -/
def marshalNotification (n : NotificationPayload) : Json :=
  Json.obj
    (omitEmptyString "title" n.Title ++ omitEmptyString "body" n.Body ++
     omitEmptyString "icon" n.Icon ++ omitEmptyString "sound" n.Sound ++
     omitEmptyString "badge" n.Badge ++ omitEmptyString "tag" n.Tag ++
     omitEmptyString "color" n.Color ++ omitEmptyString "click_action" n.ClickAction ++
     omitEmptyString "body_loc_key" n.BodyLocKey ++
     omitEmptyString "body_loc_args" n.BodyLocArgs ++
     omitEmptyString "title_loc_key" n.TitleLocKey ++
     omitEmptyString "title_loc_args" n.TitleLocArgs)

/-- Go `json.Marshal(fcmn.Message)`: the fields of `FcmMsg` in declaration order
under their `json` tags.  `omitempty` leaves out false, 0, a nil interface and an
empty slice or string; a struct value is never empty for `encoding/json`, so
`Notification` is always written. -/
def Marshal (h : Heap) (m : FcmMsg) : Except GoError Json :=
  match omitEmptyInterface "data" m.Data with
  | .error e => .error e
  | .ok data =>
    .ok (Json.obj
      (data ++ omitEmptyString "to" m.To ++
       omitEmptyStrings h "registration_ids" m.RegistrationIds ++
       omitEmptyString "collapse_key" m.CollapseKey ++
       omitEmptyString "priority" m.Priority ++
       [("notification", marshalNotification m.Notification)] ++
       omitEmptyBool "content_available" m.ContentAvailable ++
       omitEmptyInt "time_to_live" m.TimeToLive ++
       omitEmptyString "restricted_package_name" m.RestrictedPackageName ++
       omitEmptyBool "dry_run" m.DryRun ++
       omitEmptyString "condition" m.Condition))

/-! ## `net/http`: requests, responses, the client -/

/-- The parts of an `*http.Request` that `Send` sets.  `Body` is the encoded
message, kept as the JSON value its bytes denote. -/
structure Request where
  Method : String
  URL : String
  Header : List (String × String)
  Body : Json

/-- Go `Header.Set`: the value replaces what the key held. -/
def headerSet (hd : List (String × String)) (key value : String) : List (String × String) :=
  hd.filter (fun kv => kv.1 != key) ++ [(key, value)]

/-- Go `request.Header.Set(key, value)`. -/
def Request.setHeader (r : Request) (key value : String) : Request :=
  { r with Header := headerSet r.Header key value }

/-- An `*http.Response` as `Send` reads it: the status code, and what
`ioutil.ReadAll(response.Body)` returns (the bytes, taken as the text they spell
in UTF-8, and the error if any). -/
structure Response where
  StatusCode : Int
  Body : String
  readErr : Option GoError := none

/-- What `(*http.Client).Do` answers to a request. -/
abbrev Client := Request → Except GoError Response

/-- Go `FcmNotifier`; `httpClient` is a pointer, `none` is nil. -/
structure FcmNotifier where
  ApiKey : String := ""
  Message : FcmMsg := {}
  httpClient : Option Client := none

/-- Go `http.NewRequest(method, url, body)`.  The URL goes through
`net/url.Parse`, given here as `urlParse` (`none` when it accepts); on failure
the request returned is nil and only the error is left. -/
def NewRequest (urlParse : String → Option GoError) (method url : String) (body : Json) :
    Except GoError Request :=
  match urlParse url with
  | some e => .error e
  | none => .ok { Method := method, URL := url, Header := [], Body := body }

/-! ## The builder -/

/-- Go `NewFcmNotifier`: `new(FcmNotifier)` with the key and the client set. -/
def NewFcmNotifier (client : Option Client) (apiKey : String) : FcmNotifier :=
  let fcmn : FcmNotifier := {}
  let fcmn := { fcmn with ApiKey := apiKey }
  let fcmn := { fcmn with httpClient := client }
  fcmn

/-- Go `SetTopic`. -/
def SetTopic (fcmn : FcmNotifier) (to_ : String) : FcmNotifier :=
  { fcmn with Message := { fcmn.Message with To := to_ } }

/-- Go `SetRegistrationIds`: `make` a slice of the list's length, `copy` the list
into it. -/
def SetRegistrationIds (h : Heap) (fcmn : FcmNotifier) (list : Option StringSlice) :
    Heap × FcmNotifier :=
  let (h, ids) := h.make (sliceLen list)
  let fcmn := { fcmn with Message := { fcmn.Message with RegistrationIds := some ids } }
  let h := h.copy fcmn.Message.RegistrationIds list
  (h, fcmn)

/-- Go `SetTitle`. -/
def SetTitle (fcmn : FcmNotifier) (value : String) : FcmNotifier :=
  { fcmn with Message :=
      { fcmn.Message with Notification := { fcmn.Message.Notification with Title := value } } }

/-- Go `SetBody`. -/
def SetBody (fcmn : FcmNotifier) (value : String) : FcmNotifier :=
  { fcmn with Message :=
      { fcmn.Message with Notification := { fcmn.Message.Notification with Body := value } } }

/-- Go `SetIcon`. -/
def SetIcon (fcmn : FcmNotifier) (value : String) : FcmNotifier :=
  { fcmn with Message :=
      { fcmn.Message with Notification := { fcmn.Message.Notification with Icon := value } } }

/-- Go `SetCollapseKey`. -/
def SetCollapseKey (fcmn : FcmNotifier) (value : String) : FcmNotifier :=
  { fcmn with Message := { fcmn.Message with CollapseKey := value } }

/-- Go `SetCondition`. -/
def SetCondition (fcmn : FcmNotifier) (value : String) : FcmNotifier :=
  { fcmn with Message := { fcmn.Message with Condition := value } }

/-- Go `SetContentAvailable`. -/
def SetContentAvailable (fcmn : FcmNotifier) (value : Bool) : FcmNotifier :=
  { fcmn with Message := { fcmn.Message with ContentAvailable := value } }

/-- Go `SetData`. -/
def SetData (fcmn : FcmNotifier) (value : GoValue) : FcmNotifier :=
  { fcmn with Message := { fcmn.Message with Data := value } }

/-- Go `SetDryRun`. -/
def SetDryRun (fcmn : FcmNotifier) (value : Bool) : FcmNotifier :=
  { fcmn with Message := { fcmn.Message with DryRun := value } }

/-- Go `SetHighPriority`. -/
def SetHighPriority (fcmn : FcmNotifier) : FcmNotifier :=
  { fcmn with Message := { fcmn.Message with Priority := "high" } }

/-- Go `SetRestrictedPackageName`. -/
def SetRestrictedPackageName (fcmn : FcmNotifier) (value : String) : FcmNotifier :=
  { fcmn with Message := { fcmn.Message with RestrictedPackageName := value } }

/-- Go `SetTTL`. -/
def SetTTL (fcmn : FcmNotifier) (value : Int) : FcmNotifier :=
  if value > MaxTTL then
    { fcmn with Message := { fcmn.Message with TimeToLive := MaxTTL } }
  else
    { fcmn with Message := { fcmn.Message with TimeToLive := value } }

/-! ## `encoding/json`: the decoder -/

/-- JSON white space. -/
def isWs (c : Char) : Bool :=
  c = ' ' || c = '\t' || c = '\r' || c = '\n'

/-- Drop leading white space. -/
def skipWs : List Char → List Char
  | [] => []
  | c :: cs => if isWs c then skipWs cs else c :: cs

/-- A decimal digit. -/
def isDigit (c : Char) : Bool :=
  48 ≤ c.toNat && c.toNat ≤ 57

/-- The value of a hexadecimal digit. -/
def hexVal (c : Char) : Option Nat :=
  if 48 ≤ c.toNat ∧ c.toNat ≤ 57 then some (c.toNat - 48)
  else if 97 ≤ c.toNat ∧ c.toNat ≤ 102 then some (c.toNat - 87)
  else if 65 ≤ c.toNat ∧ c.toNat ≤ 70 then some (c.toNat - 55)
  else none

/-- The code unit written by the four hexadecimal digits of a `\u` escape. -/
def hex4 (a b c d : Char) : Option Nat :=
  match hexVal a, hexVal b, hexVal c, hexVal d with
  | some w, some x, some y, some z => some (((w * 16 + x) * 16 + y) * 16 + z)
  | _, _, _, _ => none

/-- The replacement character U+FFFD. -/
def replacementChar : Char := Char.ofNat 0xFFFD

/-- The rune of a `\u` escape with code unit `n`, given the code unit of a `\u`
escape that follows it directly, if any; the flag says the following escape is
used up.  A surrogate pair is one rune, a lone surrogate is U+FFFD. -/
def escapedRune (n : Nat) (next : Option Nat) : Char × Bool :=
  if 0xD800 ≤ n ∧ n < 0xE000 then
    match next with
    | some m =>
      if n < 0xDC00 ∧ 0xDC00 ≤ m ∧ m < 0xE000 then
        (Char.ofNat ((n - 0xD800) * 1024 + (m - 0xDC00) + 0x10000), true)
      else (replacementChar, false)
    | none => (replacementChar, false)
  else (Char.ofNat n, false)

/-- The code unit of a `\u` escape at the head of the input, if there is one. -/
def peekEscape : List Char → Option Nat
  | '\\' :: 'u' :: a :: b :: c :: d :: _ => hex4 a b c d
  | _ => none

/-- A string literal after its opening quote: the text it denotes and the rest of
the input.  `fuel` bounds the characters read; `acc` is the text so far,
reversed.  A control character, an unknown escape or a missing closing quote is a
syntax error. -/
def parseStringBody : Nat → List Char → List Char → Option (String × List Char)
  | 0, _, _ => none
  | _ + 1, [], _ => none
  | fuel + 1, c :: rest, acc =>
    if c = '"' then some (String.mk acc.reverse, rest)
    else if c = '\\' then
      match rest with
      | 'u' :: a :: b :: c :: d :: r =>
        match hex4 a b c d with
        | none => none
        | some n =>
          match escapedRune n (peekEscape r) with
          | (ch, true) => parseStringBody fuel (r.drop 6) (ch :: acc)
          | (ch, false) => parseStringBody fuel r (ch :: acc)
      | e :: r =>
        if e = '"' then parseStringBody fuel r ('"' :: acc)
        else if e = '\\' then parseStringBody fuel r ('\\' :: acc)
        else if e = '/' then parseStringBody fuel r ('/' :: acc)
        else if e = 'b' then parseStringBody fuel r (Char.ofNat 8 :: acc)
        else if e = 'f' then parseStringBody fuel r (Char.ofNat 12 :: acc)
        else if e = 'n' then parseStringBody fuel r ('\n' :: acc)
        else if e = 'r' then parseStringBody fuel r ('\r' :: acc)
        else if e = 't' then parseStringBody fuel r ('\t' :: acc)
        else none
      | [] => none
    else if c.toNat < 32 then none
    else parseStringBody fuel rest (c :: acc)

/-- The longest run of digits at the head of the input, and the rest. -/
def takeDigits : List Char → List Char × List Char
  | [] => ([], [])
  | c :: cs =>
    if isDigit c then ((c :: (takeDigits cs).1), (takeDigits cs).2) else ([], c :: cs)

/-- The optional exponent of a number whose literal so far is `lit`. -/
def parseExp (lit : List Char) : List Char → Option (List Char × List Char)
  | [] => some (lit, [])
  | e :: r =>
    if e = 'e' ∨ e = 'E' then
      let sr : List Char × List Char :=
        match r with
        | [] => ([], [])
        | s :: t => if s = '+' ∨ s = '-' then ([s], t) else ([], s :: t)
      let dr := takeDigits sr.2
      if dr.1 = [] then none else some (lit ++ e :: sr.1 ++ dr.1, dr.2)
    else some (lit, e :: r)

/-- The optional fraction of a number whose literal so far is `lit`, then the
exponent. -/
def parseFrac (lit : List Char) : List Char → Option (List Char × List Char)
  | [] => some (lit, [])
  | p :: r =>
    if p = '.' then
      let dr := takeDigits r
      if dr.1 = [] then none else parseExp (lit ++ '.' :: dr.1) dr.2
    else parseExp lit (p :: r)

/-- The integer part of a number after its sign: `0`, or a digit from 1 to 9 and
more digits; then the fraction and the exponent. -/
def parseUnsigned (sign : List Char) : List Char → Option (List Char × List Char)
  | [] => none
  | c :: r =>
    if c = '0' then parseFrac (sign ++ ['0']) r
    else if isDigit c then
      let dr := takeDigits r
      parseFrac (sign ++ c :: dr.1) dr.2
    else none

/-- A number literal at the head of the input: the literal and the rest. -/
def parseNumber : List Char → Option (List Char × List Char)
  | [] => none
  | c :: r => if c = '-' then parseUnsigned ['-'] r else parseUnsigned [] (c :: r)

/-- The nesting of arrays and objects the scanner accepts. -/
def maxNestingDepth : Nat := 10000

mutual
/-- One JSON value at the head of the input (after white space) and the rest of
the input; `none` is a syntax error.  `depth` counts the arrays and objects
opened around the value. -/
def parseValue : Nat → Nat → List Char → Option (Json × List Char)
  | 0, _, _ => none
  | fuel + 1, depth, cs =>
    match skipWs cs with
    | [] => none
    | c :: r =>
      if c = '\x7b' then
        if depth ≥ maxNestingDepth then none
        else
          match skipWs r with
          | [] => none
          | c1 :: r1 =>
            if c1 = '\x7d' then some (Json.obj [], r1)
            else
              match parseMembers fuel (depth + 1) (c1 :: r1) with
              | none => none
              | some (kvs, r2) => some (Json.obj kvs, r2)
      else if c = '[' then
        if depth ≥ maxNestingDepth then none
        else
          match skipWs r with
          | [] => none
          | c1 :: r1 =>
            if c1 = ']' then some (Json.arr [], r1)
            else
              match parseElems fuel (depth + 1) (c1 :: r1) with
              | none => none
              | some (vs, r2) => some (Json.arr vs, r2)
      else if c = '"' then
        match parseStringBody r.length r [] with
        | none => none
        | some (s, r1) => some (Json.str s, r1)
      else
        match c :: r with
        | 't' :: 'r' :: 'u' :: 'e' :: r1 => some (Json.bool true, r1)
        | 'f' :: 'a' :: 'l' :: 's' :: 'e' :: r1 => some (Json.bool false, r1)
        | 'n' :: 'u' :: 'l' :: 'l' :: r1 => some (Json.null, r1)
        | cs1 =>
          match parseNumber cs1 with
          | none => none
          | some (lit, r1) => some (Json.num (String.mk lit), r1)
/-- The elements of an array after `[` or `,`, up to and including `]`. -/
def parseElems : Nat → Nat → List Char → Option (List Json × List Char)
  | 0, _, _ => none
  | fuel + 1, depth, cs =>
    match parseValue fuel depth cs with
    | none => none
    | some (v, r) =>
      match skipWs r with
      | [] => none
      | c :: r1 =>
        if c = ',' then
          match parseElems fuel depth r1 with
          | none => none
          | some (vs, r2) => some (v :: vs, r2)
        else if c = ']' then some ([v], r1)
        else none
/-- The members of an object after its opening brace or `,`, up to and including
the closing brace. -/
def parseMembers : Nat → Nat → List Char → Option (List (String × Json) × List Char)
  | 0, _, _ => none
  | fuel + 1, depth, cs =>
    match skipWs cs with
    | [] => none
    | q :: r =>
      if q = '"' then
        match parseStringBody r.length r [] with
        | none => none
        | some (k, r1) =>
          match skipWs r1 with
          | [] => none
          | c :: r2 =>
            if c = ':' then
              match parseValue fuel depth r2 with
              | none => none
              | some (v, r3) =>
                match skipWs r3 with
                | [] => none
                | c1 :: r4 =>
                  if c1 = ',' then
                    match parseMembers fuel depth r4 with
                    | none => none
                    | some (kvs, r5) => some ((k, v) :: kvs, r5)
                  else if c1 = '\x7d' then some ([(k, v)], r4)
                  else none
            else none
      else none
end

/-- A whole JSON text: one value with white space around it and nothing else.
Two nested calls use up at least one character, so `2 * length + 2` calls are
enough for every input. -/
def parseJson (cs : List Char) : Option Json :=
  match parseValue (2 * cs.length + 2) 0 cs with
  | none => none
  | some (v, r) => if skipWs r = [] then some v else none

/-- The fields of `SendResponse`, in declaration order.  All nine are exported
and none is tagged `json:"-"`, so the decoder fills every one of them. -/
inductive Field where
  | Ok | StatusCode | MulticastId | Success | Fail | Canonical_ids | Results | MsgId | Err
  deriving DecidableEq, Repr

/-- The JSON name of a field: its `json` tag, or the Go name when it has none. -/
def Field.jsonName : Field → String
  | .Ok => "Ok"
  | .StatusCode => "StatusCode"
  | .MulticastId => "multicast_id"
  | .Success => "success"
  | .Fail => "failure"
  | .Canonical_ids => "canonical_ids"
  | .Results => "results"
  | .MsgId => "message_id"
  | .Err => "error"

/-- All fields of `SendResponse`. -/
def Field.all : List Field :=
  [.Ok, .StatusCode, .MulticastId, .Success, .Fail, .Canonical_ids, .Results, .MsgId, .Err]

/-- Case folding as the decoder compares keys: ASCII letters to upper case, the
Kelvin sign U+212A to `K` and the long s U+017F to `S` (the two other runes that
fold to an ASCII letter). -/
def foldRune (c : Char) : Char :=
  if 97 ≤ c.toNat ∧ c.toNat ≤ 122 then Char.ofNat (c.toNat - 32)
  else if c.toNat = 0x212A then 'K'
  else if c.toNat = 0x17F then 'S'
  else c

/-- A name folded rune by rune. -/
def foldName (s : String) : List Char :=
  s.data.map foldRune

/-- The field a key of the body is decoded into: the one with exactly this name,
else the one whose name equals it up to case folding; `none` when the key is
ignored. -/
def findField (key : String) : Option Field :=
  match Field.all.find? (fun f => f.jsonName == key) with
  | some f => some f
  | none => Field.all.find? (fun f => foldName f.jsonName == foldName key)

/-- The value of a run of decimal digits. -/
def digitsValue (ds : List Char) : Nat :=
  ds.foldl (fun n c => n * 10 + (c.toNat - 48)) 0

/-- Go `strconv.ParseInt(lit, 10, 64)` on a JSON number literal: an integer
literal in the range of `int64`. -/
def parseInt64 (lit : List Char) : Option Int :=
  match lit with
  | [] => none
  | c :: ds =>
    if c = '-' then
      if ds ≠ [] ∧ ds.all isDigit ∧ digitsValue ds ≤ 2 ^ 63 then
        some (-(digitsValue ds : Int))
      else none
    else
      if (c :: ds).all isDigit ∧ digitsValue (c :: ds) < 2 ^ 63 then
        some (digitsValue (c :: ds) : Int)
      else none

/-- How an `UnmarshalTypeError` names the JSON value it could not store. -/
def Json.describe : Json → String
  | .null => "null"
  | .bool _ => "bool"
  | .num _ => "number"
  | .str _ => "string"
  | .arr _ => "array"
  | .obj _ => "object"

/-- A JSON value decoded into an `int` field holding `cur`: `null` leaves the
field alone, an integer literal that fits is stored, anything else is a type error
and the field keeps its value. -/
def decodeInt (field : String) (v : Json) (cur : Int) : Int × Option GoError :=
  match v with
  | .null => (cur, none)
  | .num lit =>
    match parseInt64 lit.data with
    | some n => (n, none)
    | none => (cur, some (.unmarshalType ("number " ++ lit) field))
  | w => (cur, some (.unmarshalType w.describe field))

/-- A JSON value decoded into a `bool` field holding `cur`. -/
def decodeBool (field : String) (v : Json) (cur : Bool) : Bool × Option GoError :=
  match v with
  | .null => (cur, none)
  | .bool b => (b, none)
  | w => (cur, some (.unmarshalType w.describe field))

/-- A JSON value decoded into a `string` field holding `cur`. -/
def decodeString (field : String) (v : Json) (cur : String) : String × Option GoError :=
  match v with
  | .null => (cur, none)
  | .str s => (s, none)
  | w => (cur, some (.unmarshalType w.describe field))

/-- Go map assignment `m[k] = v` on the entries of a map. -/
def mapSet (m : List (String × String)) (k v : String) : List (String × String) :=
  m.filter (fun kv => kv.1 != k) ++ [(k, v)]

/-- The first error is the one the decoder keeps. -/
def saveError (saved new : Option GoError) : Option GoError :=
  match saved with
  | some e => some e
  | none => new

/-- The members of a JSON object stored into a `map[string]string`, in order;
a value that is not a string is a type error and its key maps to `""`. -/
def decodeEntries (field : String) :
    List (String × Json) → List (String × String) × Option GoError →
      List (String × String) × Option GoError
  | [], st => st
  | (k, v) :: kvs, (m, saved) =>
    let r := decodeString field v ""
    decodeEntries field kvs (mapSet m k r.1, saveError saved r.2)

/-- A JSON value decoded into a `map[string]string` holding `cur`: `null` makes
it nil, an object adds its members (to a new map when `cur` is nil). -/
def decodeStringMap (field : String) (v : Json) (cur : StringMap) : StringMap × Option GoError :=
  match v with
  | .null => (none, none)
  | .obj kvs =>
    let r := decodeEntries field kvs (cur.getD [], none)
    (some r.1, r.2)
  | w => (cur, some (.unmarshalType w.describe field))

/-- The elements of a JSON array decoded one by one into fresh elements of a
`[]map[string]string`. -/
def decodeMaps (field : String) : List Json → List StringMap × Option GoError
  | [] => ([], none)
  | v :: vs =>
    let r := decodeStringMap field v none
    let rs := decodeMaps field vs
    (r.1 :: rs.1, saveError r.2 rs.2)

/-- A JSON value decoded into the `[]map[string]string` field holding `cur`:
`null` makes it nil, an array replaces it by a slice of the array's length.
(When one body names the field more than once, each occurrence is decoded as into
a nil slice here; the Go decoder reuses the earlier backing array.) -/
def decodeResults (field : String) (v : Json) (cur : Option (List StringMap)) :
    Option (List StringMap) × Option GoError :=
  match v with
  | .null => (none, none)
  | .arr vs =>
    let r := decodeMaps field vs
    (some r.1, r.2)
  | w => (cur, some (.unmarshalType w.describe field))

/-- One member of the body decoded into the field it names. -/
def decodeField (f : Field) (v : Json) (r : SendResponse) : SendResponse × Option GoError :=
  match f with
  | .Ok => let x := decodeBool f.jsonName v r.Ok; ({ r with Ok := x.1 }, x.2)
  | .StatusCode =>
    let x := decodeInt f.jsonName v r.StatusCode; ({ r with StatusCode := x.1 }, x.2)
  | .MulticastId =>
    let x := decodeInt f.jsonName v r.MulticastId; ({ r with MulticastId := x.1 }, x.2)
  | .Success => let x := decodeInt f.jsonName v r.Success; ({ r with Success := x.1 }, x.2)
  | .Fail => let x := decodeInt f.jsonName v r.Fail; ({ r with Fail := x.1 }, x.2)
  | .Canonical_ids =>
    let x := decodeInt f.jsonName v r.Canonical_ids; ({ r with Canonical_ids := x.1 }, x.2)
  | .Results =>
    let x := decodeResults f.jsonName v r.Results; ({ r with Results := x.1 }, x.2)
  | .MsgId => let x := decodeInt f.jsonName v r.MsgId; ({ r with MsgId := x.1 }, x.2)
  | .Err => let x := decodeString f.jsonName v r.Err; ({ r with Err := x.1 }, x.2)

/-- The members of the body decoded in order into the struct.  A key that names
no field is skipped; a type error is saved and decoding goes on with the next
member. -/
def decodeObject :
    List (String × Json) → SendResponse × Option GoError → SendResponse × Option GoError
  | [], st => st
  | (k, v) :: kvs, (r, saved) =>
    match findField k with
    | none => decodeObject kvs (r, saved)
    | some f =>
      let x := decodeField f v r
      decodeObject kvs (x.1, saveError saved x.2)

/-- Go `json.Unmarshal(body, sendResponse)`: the struct after the call and the
error returned.  The whole text is checked first, so a syntax error leaves the
struct untouched.  Then an object is decoded member by member, `null` is a no-op,
and any other value is a type error.  After a type error the decoder skips that
value, completes the rest and returns the first such error. -/
def Unmarshal (data : String) (v : SendResponse) : SendResponse × Option GoError :=
  match parseJson data.data with
  | none => (v, some .syntaxError)
  | some (.obj kvs) => decodeObject kvs (v, none)
  | some .null => (v, none)
  | some w => (v, some (.unmarshalType w.describe "SendResponse"))

/-! ## Send -/

/-- What `Send` depends on besides its receiver: the package variable
`FcmServiceUrl`, the URL parser behind `http.NewRequest`, and the heap the
message's slice points into. -/
structure Env where
  FcmServiceUrl : String := "https://fcm.googleapis.com/fcm/send"
  urlParse : String → Option GoError := fun _ => none
  heap : Heap := []

/-- How a call ends: it returns its two results, or it panics. -/
inductive Outcome where
  | returned (sendResponse : SendResponse) (err : Option GoError)
  | panicked

/-- One run of `Send`: how it ended, the requests it handed to the client's
`Do` in order, and the receiver after the call. -/
structure SendRun where
  outcome : Outcome
  calls : List Request
  fcmn : FcmNotifier

/-- Go `Send`.  The error of `http.NewRequest` is not checked before the request
is used: when it is non-nil the request is nil and `request.Header` panics with a
nil dereference, as does `fcmn.httpClient.Do` on a nil client. -/
def Send (env : Env) (fcmn : FcmNotifier) : SendRun :=
  let sendResponse : SendResponse := {}
  match Marshal env.heap fcmn.Message with
  | .error err => { outcome := .returned sendResponse (some err), calls := [], fcmn := fcmn }
  | .ok body =>
    match NewRequest env.urlParse "POST" env.FcmServiceUrl body with
    | .error _ => { outcome := .panicked, calls := [], fcmn := fcmn }
    | .ok request =>
      let request := request.setHeader "Authorization" ("key=" ++ fcmn.ApiKey)
      let request := request.setHeader "Content-Type" "application/json"
      match fcmn.httpClient with
      | none => { outcome := .panicked, calls := [], fcmn := fcmn }
      | some httpClient =>
        match httpClient request with
        | .error err =>
          { outcome := .returned sendResponse (some err), calls := [request], fcmn := fcmn }
        | .ok response =>
          match response.readErr with
          | some err =>
            { outcome := .returned sendResponse (some err), calls := [request], fcmn := fcmn }
          | none =>
            let sendResponse := { sendResponse with StatusCode := response.StatusCode }
            if response.StatusCode = 200 then
              match Unmarshal response.Body sendResponse with
              | (sendResponse, some err) =>
                { outcome := .returned sendResponse (some err), calls := [request], fcmn := fcmn }
              | (sendResponse, none) =>
                let sendResponse := { sendResponse with Ok := true }
                { outcome := .returned sendResponse none, calls := [request], fcmn := fcmn }
            else
              { outcome := .returned sendResponse none, calls := [request], fcmn := fcmn }

/-! ## Derived notions and sample inputs -/

/-- Whether the body is a JSON object with a member that the decoder stores into
`StatusCode`. -/
def namesStatusCode (body : String) : Bool :=
  match parseJson body.data with
  | some (.obj kvs) => kvs.any (fun kv => findField kv.1 == some Field.StatusCode)
  | _ => false

/-- A client that answers every request with the given response. -/
def answerWith (response : Response) : Client :=
  fun _ => .ok response

/-- A client whose `Do` fails with the given error. -/
def failWith (e : GoError) : Client :=
  fun _ => .error e

/-- One check of `net/url.Parse`: a text that starts with a colon has no scheme.
It serves to exhibit a URL that `http.NewRequest` rejects. -/
def colonHasNoScheme (url : String) : Option GoError :=
  match url.data with
  | ':' :: _ => some (.url "missing protocol scheme")
  | _ => none

/-- The body `\x7b"multicast_id":1,"success":1,"failure":0\x7d`. -/
def bodyAccepted : String :=
  "\x7b\"multicast_id\":1,\"success\":1,\"failure\":0\x7d"

/-- The body `\x7b"Ok":true,"success":"x"\x7d`: a string where a count is due. -/
def bodyOkBadCount : String :=
  "\x7b\"Ok\":true,\"success\":\"x\"\x7d"

/-- The body `\x7b"StatusCode":404,"success":1\x7d`. -/
def bodyStatusCode : String :=
  "\x7b\"StatusCode\":404,\"success\":1\x7d"

/-! ## Calls of the builder -/

/-- A call of one of the thirteen setters, with its argument. -/
inductive Mutator where
  | SetTopic (to_ : String)
  | SetRegistrationIds (list : Option StringSlice)
  | SetTitle (value : String)
  | SetBody (value : String)
  | SetIcon (value : String)
  | SetCollapseKey (value : String)
  | SetCondition (value : String)
  | SetContentAvailable (value : Bool)
  | SetData (value : GoValue)
  | SetDryRun (value : Bool)
  | SetHighPriority
  | SetRestrictedPackageName (value : String)
  | SetTTL (value : Int)

/-- The heap and the receiver after the call. -/
def Mutator.apply (m : Mutator) (st : Heap × FcmNotifier) : Heap × FcmNotifier :=
  match m with
  | .SetTopic to_ => (st.1, FcmNotify.SetTopic st.2 to_)
  | .SetRegistrationIds list => FcmNotify.SetRegistrationIds st.1 st.2 list
  | .SetTitle value => (st.1, FcmNotify.SetTitle st.2 value)
  | .SetBody value => (st.1, FcmNotify.SetBody st.2 value)
  | .SetIcon value => (st.1, FcmNotify.SetIcon st.2 value)
  | .SetCollapseKey value => (st.1, FcmNotify.SetCollapseKey st.2 value)
  | .SetCondition value => (st.1, FcmNotify.SetCondition st.2 value)
  | .SetContentAvailable value => (st.1, FcmNotify.SetContentAvailable st.2 value)
  | .SetData value => (st.1, FcmNotify.SetData st.2 value)
  | .SetDryRun value => (st.1, FcmNotify.SetDryRun st.2 value)
  | .SetHighPriority => (st.1, FcmNotify.SetHighPriority st.2)
  | .SetRestrictedPackageName value => (st.1, FcmNotify.SetRestrictedPackageName st.2 value)
  | .SetTTL value => (st.1, FcmNotify.SetTTL st.2 value)

/-- A sequence of calls on one notifier, first to last. -/
def applyAll : List Mutator → Heap × FcmNotifier → Heap × FcmNotifier
  | [], st => st
  | m :: ms, st => applyAll ms (m.apply st)

/-- Whether the call is `SetHighPriority`. -/
def Mutator.isSetHighPriority : Mutator → Bool
  | .SetHighPriority => true
  | _ => false

/-- What the call hands back to its caller.  Twelve setters are declared with the
result type `*FcmNotifier` and end in `return fcmn`: the receiver, here in its
state after the call.  `SetHighPriority` is declared without a result. -/
def Mutator.result (m : Mutator) (st : Heap × FcmNotifier) : Option FcmNotifier :=
  match m with
  | .SetHighPriority => none
  | .SetTopic _ => some (m.apply st).2
  | .SetRegistrationIds _ => some (m.apply st).2
  | .SetTitle _ => some (m.apply st).2
  | .SetBody _ => some (m.apply st).2
  | .SetIcon _ => some (m.apply st).2
  | .SetCollapseKey _ => some (m.apply st).2
  | .SetCondition _ => some (m.apply st).2
  | .SetContentAvailable _ => some (m.apply st).2
  | .SetData _ => some (m.apply st).2
  | .SetDryRun _ => some (m.apply st).2
  | .SetRestrictedPackageName _ => some (m.apply st).2
  | .SetTTL _ => some (m.apply st).2

/-- A fluent chain `fcmn.m1(..).m2(..)`: every call but the first is made on the
result of the call before it; `none` when that call has no result. -/
def chain : List Mutator → Heap × FcmNotifier → Option (Heap × FcmNotifier)
  | [], st => some st
  | m :: ms, st =>
    match ms with
    | [] => some (m.apply st)
    | _ :: _ =>
      match m.result st with
      | none => none
      | some r => chain ms ((m.apply st).1, r)

/-- The places a setter could write: the fields of the message (those of the
notification one by one), the key and the client. -/
inductive Slot where
  | Data | To | RegistrationIds | CollapseKey | Priority
  | Title | Body | Icon | Sound | Badge | Tag | Color | ClickAction
  | BodyLocKey | BodyLocArgs | TitleLocKey | TitleLocArgs
  | ContentAvailable | TimeToLive | RestrictedPackageName | DryRun | Condition
  | ApiKey | httpClient
  deriving DecidableEq, Repr

/-- Two notifier states hold the same value in a slot. -/
def Slot.same (s : Slot) (a b : FcmNotifier) : Prop :=
  match s with
  | .Data => a.Message.Data = b.Message.Data
  | .To => a.Message.To = b.Message.To
  | .RegistrationIds => a.Message.RegistrationIds = b.Message.RegistrationIds
  | .CollapseKey => a.Message.CollapseKey = b.Message.CollapseKey
  | .Priority => a.Message.Priority = b.Message.Priority
  | .Title => a.Message.Notification.Title = b.Message.Notification.Title
  | .Body => a.Message.Notification.Body = b.Message.Notification.Body
  | .Icon => a.Message.Notification.Icon = b.Message.Notification.Icon
  | .Sound => a.Message.Notification.Sound = b.Message.Notification.Sound
  | .Badge => a.Message.Notification.Badge = b.Message.Notification.Badge
  | .Tag => a.Message.Notification.Tag = b.Message.Notification.Tag
  | .Color => a.Message.Notification.Color = b.Message.Notification.Color
  | .ClickAction => a.Message.Notification.ClickAction = b.Message.Notification.ClickAction
  | .BodyLocKey => a.Message.Notification.BodyLocKey = b.Message.Notification.BodyLocKey
  | .BodyLocArgs => a.Message.Notification.BodyLocArgs = b.Message.Notification.BodyLocArgs
  | .TitleLocKey => a.Message.Notification.TitleLocKey = b.Message.Notification.TitleLocKey
  | .TitleLocArgs => a.Message.Notification.TitleLocArgs = b.Message.Notification.TitleLocArgs
  | .ContentAvailable => a.Message.ContentAvailable = b.Message.ContentAvailable
  | .TimeToLive => a.Message.TimeToLive = b.Message.TimeToLive
  | .RestrictedPackageName =>
    a.Message.RestrictedPackageName = b.Message.RestrictedPackageName
  | .DryRun => a.Message.DryRun = b.Message.DryRun
  | .Condition => a.Message.Condition = b.Message.Condition
  | .ApiKey => a.ApiKey = b.ApiKey
  | .httpClient => a.httpClient = b.httpClient

/-- The slot each setter is said to write. -/
def Mutator.slot : Mutator → Slot
  | .SetTopic _ => .To
  | .SetRegistrationIds _ => .RegistrationIds
  | .SetTitle _ => .Title
  | .SetBody _ => .Body
  | .SetIcon _ => .Icon
  | .SetCollapseKey _ => .CollapseKey
  | .SetCondition _ => .Condition
  | .SetContentAvailable _ => .ContentAvailable
  | .SetData _ => .Data
  | .SetDryRun _ => .DryRun
  | .SetHighPriority => .Priority
  | .SetRestrictedPackageName _ => .RestrictedPackageName
  | .SetTTL _ => .TimeToLive

/-- The value of the member with the given key in a JSON object, if it has one. -/
def Json.member (key : String) : Json → Option Json
  | .obj kvs => (kvs.find? (fun kv => kv.1 == key)).map (fun kv => kv.2)
  | _ => none

/-- Go `Header.Get`: the value the key holds, if any. -/
def headerGet (hd : List (String × String)) (key : String) : Option String :=
  (hd.find? (fun kv => kv.1 == key)).map (fun kv => kv.2)

/-! ## Builder: time to live -/

/-- C1: after `SetTTL v` the stored time to live is 2419200 when `v > 2419200`
and `v` otherwise; a negative value is stored as it is. -/
theorem SetTTL_stores_clamped (fcmn : FcmNotifier) (v : Int) (n : Nat) :
    (SetTTL fcmn v).Message.TimeToLive = (if v > 2419200 then 2419200 else v) ∧
      (SetTTL fcmn (Int.negSucc n)).Message.TimeToLive = Int.negSucc n := by
  constructor
  · unfold SetTTL MaxTTL
    split <;> rfl
  · unfold SetTTL MaxTTL
    have hneg : ¬ (Int.negSucc n > 2419200) := by
      have := Int.negSucc_lt_zero n
      omega
    simp [hneg]

/-! ## Encoding the message -/

/-- C2: the message of a new notifier does not encode to an object without keys:
`json.Marshal` writes the key `notification` with an empty object, because
`omitempty` never leaves out a struct value. -/
theorem Marshal_new_notifier_keeps_notification (h : Heap) (client : Option Client)
    (apiKey : String) :
    Marshal h (NewFcmNotifier client apiKey).Message
      = .ok (Json.obj [("notification", Json.obj [])]) := by
  rfl

/-! ## Send: interpreting the response -/

/-- C3: with status 200 and the body `bodyOkBadCount`, decoding fails with a type
error on `success`, yet the result handed back has `Ok = true`: the decoder has
stored the body's `Ok` member into the untagged field `Ok`. -/
theorem Send_decode_error_with_Ok_true :
    (Send {} (NewFcmNotifier (some (answerWith { StatusCode := 200, Body := bodyOkBadCount }))
        "key")).outcome
      = .returned { Ok := true, StatusCode := 200 }
          (some (.unmarshalType "string" "success")) := by
  rfl

/-- The decoder leaves `StatusCode` alone when it stores into another field. -/
theorem decodeField_StatusCode (f : Field) (v : Json) (r : SendResponse)
    (hf : f ≠ Field.StatusCode) : (decodeField f v r).1.StatusCode = r.StatusCode := by
  cases f <;> first | exact absurd rfl hf | rfl

/-- Members none of which names `StatusCode` leave it as it was. -/
theorem decodeObject_StatusCode (kvs : List (String × Json)) :
    ∀ (r : SendResponse) (saved : Option GoError),
      (kvs.any (fun kv => findField kv.1 == some Field.StatusCode)) = false →
        (decodeObject kvs (r, saved)).1.StatusCode = r.StatusCode := by
  induction kvs with
  | nil => intro r saved _; rfl
  | cons kv kvs ih =>
    intro r saved h
    obtain ⟨k, v⟩ := kv
    simp only [List.any_cons, Bool.or_eq_false_iff] at h
    obtain ⟨hk, hrest⟩ := h
    unfold decodeObject
    cases hfk : findField k with
    | none => simpa using ih r saved hrest
    | some f =>
      have hf : f ≠ Field.StatusCode := by
        intro hEq
        rw [hfk, hEq] at hk
        simp at hk
      simp only
      rw [ih _ _ hrest]
      exact decodeField_StatusCode f v r hf

/-- A body that does not name `StatusCode` leaves it as it was, whether decoding
succeeds or not. -/
theorem Unmarshal_StatusCode (data : String) (r : SendResponse)
    (h : namesStatusCode data = false) : (Unmarshal data r).1.StatusCode = r.StatusCode := by
  unfold Unmarshal
  unfold namesStatusCode at h
  cases hp : parseJson data.data with
  | none => rfl
  | some j =>
    cases j with
    | obj kvs =>
      rw [hp] at h
      exact decodeObject_StatusCode kvs r none h
    | _ => rfl

/-- C4, as stated, fails: the status code is recorded only after the body has been
read.  For a response with status 500 whose body cannot be read, the result has
`StatusCode = 0`. -/
theorem Send_read_error_drops_status :
    (Send {} (NewFcmNotifier
        (some (answerWith
          { StatusCode := 500, Body := "", readErr := some (.read "unexpected EOF") }))
        "key")).outcome
      = .returned { StatusCode := 0 } (some (.read "unexpected EOF")) := by
  rfl

/-- C4, amended: when the client answers with `response` and its body is read
without error, the result's `StatusCode` is the response's status code, provided
the code is not 200 or the body is not an object with a member named
`StatusCode`; when reading the body fails, the result is the zero value together
with the read error. -/
theorem Send_records_status_code (env : Env) (fcmn : FcmNotifier) (body : Json)
    (req : Request) (client : Client) (response : Response)
    (hm : Marshal env.heap fcmn.Message = .ok body)
    (hq : NewRequest env.urlParse "POST" env.FcmServiceUrl body = .ok req)
    (hc : fcmn.httpClient = some client)
    (hd : client ((req.setHeader "Authorization" ("key=" ++ fcmn.ApiKey)).setHeader
            "Content-Type" "application/json") = .ok response) :
    (response.readErr = none →
      (response.StatusCode ≠ 200 ∨ namesStatusCode response.Body = false) →
        ∃ r err, (Send env fcmn).outcome = .returned r err ∧
          r.StatusCode = response.StatusCode) ∧
    (∀ e, response.readErr = some e →
      (Send env fcmn).outcome = .returned {} (some e)) := by
  constructor
  · intro hr hs
    by_cases h200 : response.StatusCode = 200
    · have hn : namesStatusCode response.Body = false := by
        rcases hs with hs | hs
        · exact absurd h200 hs
        · exact hs
      have hu := Unmarshal_StatusCode response.Body { StatusCode := response.StatusCode } hn
      simp only [Send, hm, hq, hc, hd, hr, h200, if_true] at hu ⊢
      rcases hU : Unmarshal response.Body { StatusCode := 200 } with ⟨sr, oe⟩
      rw [hU] at hu
      cases oe with
      | none => exact ⟨_, _, rfl, by simpa using hu⟩
      | some e => exact ⟨_, _, rfl, by simpa using hu⟩
    · refine ⟨{ StatusCode := response.StatusCode }, none, ?_, rfl⟩
      simp [Send, hm, hq, hc, hd, hr, h200]
  · intro e hr
    simp [Send, hm, hq, hc, hd, hr]

/-- A run of `Send_records_status_code`: status 200 with the body `bodyAccepted`. -/
theorem Send_records_status_code_witness :
    ∃ r err,
      (Send {} (NewFcmNotifier (some (answerWith { StatusCode := 200, Body := bodyAccepted }))
          "key")).outcome = .returned r err ∧
        r.StatusCode = 200 :=
  (Send_records_status_code {}
    (NewFcmNotifier (some (answerWith { StatusCode := 200, Body := bodyAccepted })) "key")
    (Json.obj [("notification", Json.obj [])])
    { Method := "POST", URL := "https://fcm.googleapis.com/fcm/send", Header := [],
      Body := Json.obj [("notification", Json.obj [])] }
    (answerWith { StatusCode := 200, Body := bodyAccepted })
    { StatusCode := 200, Body := bodyAccepted }
    rfl rfl rfl rfl).1 rfl (Or.inr rfl)

/-- C5: with status 200 the body `bodyAccepted` gives `Ok = true`,
`StatusCode = 200`, `Success = 1`; but the body `bodyStatusCode`, which decodes
without error, gives a result whose `StatusCode` is 404, not 200: the decoder
stores the body's `StatusCode` member into the untagged field `StatusCode`. -/
theorem Send_body_overwrites_StatusCode :
    (Send {} (NewFcmNotifier (some (answerWith { StatusCode := 200, Body := bodyAccepted }))
        "key")).outcome
      = .returned { Ok := true, StatusCode := 200, MulticastId := 1, Success := 1, Fail := 0 }
          none ∧
    (Send {} (NewFcmNotifier (some (answerWith { StatusCode := 200, Body := bodyStatusCode }))
        "key")).outcome
      = .returned { Ok := true, StatusCode := 404, Success := 1 } none := by
  constructor <;> rfl

/-- C6: when the client answers with a response whose status code is not 200 and
whose body is read without error, `Send` returns a nil error and a result with
`Ok = false`, `StatusCode` the response's code and every other field zero,
whatever the body holds. -/
theorem Send_non200 (env : Env) (fcmn : FcmNotifier) (body : Json) (req : Request)
    (client : Client) (response : Response)
    (hm : Marshal env.heap fcmn.Message = .ok body)
    (hq : NewRequest env.urlParse "POST" env.FcmServiceUrl body = .ok req)
    (hc : fcmn.httpClient = some client)
    (hd : client ((req.setHeader "Authorization" ("key=" ++ fcmn.ApiKey)).setHeader
            "Content-Type" "application/json") = .ok response)
    (hr : response.readErr = none)
    (hs : response.StatusCode ≠ 200) :
    (Send env fcmn).outcome
      = .returned
          { Ok := false, StatusCode := response.StatusCode, MulticastId := 0, Success := 0,
            Fail := 0, Canonical_ids := 0, Results := none, MsgId := 0, Err := "" }
          none := by
  simp [Send, hm, hq, hc, hd, hr, hs]

/-- A run of `Send_non200`: status 401 with an empty body. -/
theorem Send_non200_witness :
    (Send {} (NewFcmNotifier (some (answerWith { StatusCode := 401, Body := "" }))
        "key")).outcome
      = .returned { Ok := false, StatusCode := 401 } none :=
  Send_non200 {}
    (NewFcmNotifier (some (answerWith { StatusCode := 401, Body := "" })) "key")
    (Json.obj [("notification", Json.obj [])])
    { Method := "POST", URL := "https://fcm.googleapis.com/fcm/send", Header := [],
      Body := Json.obj [("notification", Json.obj [])] }
    (answerWith { StatusCode := 401, Body := "" })
    { StatusCode := 401, Body := "" }
    rfl rfl rfl rfl rfl (by decide)

/-! ## Send: failures before a response -/

/-- C7: when the message encodes and `http.NewRequest` returns an error, `Send`
does not return: it panics on the nil request before the client is called. -/
theorem Send_panics_on_rejected_url (env : Env) (fcmn : FcmNotifier) (body : Json)
    (e : GoError)
    (hm : Marshal env.heap fcmn.Message = .ok body)
    (hq : NewRequest env.urlParse "POST" env.FcmServiceUrl body = .error e) :
    (Send env fcmn).outcome = .panicked ∧ (Send env fcmn).calls = [] := by
  simp [Send, hm, hq]

/-- A run of `Send_panics_on_rejected_url`: `FcmServiceUrl` set to `":"`. -/
theorem Send_panics_on_rejected_url_witness :
    (Send { FcmServiceUrl := ":", urlParse := colonHasNoScheme }
        (NewFcmNotifier (some (answerWith { StatusCode := 200, Body := bodyAccepted }))
          "key")).outcome = .panicked ∧
      (Send { FcmServiceUrl := ":", urlParse := colonHasNoScheme }
        (NewFcmNotifier (some (answerWith { StatusCode := 200, Body := bodyAccepted }))
          "key")).calls = [] :=
  Send_panics_on_rejected_url { FcmServiceUrl := ":", urlParse := colonHasNoScheme }
    (NewFcmNotifier (some (answerWith { StatusCode := 200, Body := bodyAccepted })) "key")
    (Json.obj [("notification", Json.obj [])])
    (.url "missing protocol scheme") rfl rfl

/-- C8: when the client's `Do` returns an error, `Send` returns that error and a
result with every field at its zero value. -/
theorem Send_transport_error (env : Env) (fcmn : FcmNotifier) (body : Json) (req : Request)
    (client : Client) (e : GoError)
    (hm : Marshal env.heap fcmn.Message = .ok body)
    (hq : NewRequest env.urlParse "POST" env.FcmServiceUrl body = .ok req)
    (hc : fcmn.httpClient = some client)
    (hd : client ((req.setHeader "Authorization" ("key=" ++ fcmn.ApiKey)).setHeader
            "Content-Type" "application/json") = .error e) :
    (Send env fcmn).outcome
      = .returned
          { Ok := false, StatusCode := 0, MulticastId := 0, Success := 0, Fail := 0,
            Canonical_ids := 0, Results := none, MsgId := 0, Err := "" }
          (some e) := by
  simp [Send, hm, hq, hc, hd]

/-- A run of `Send_transport_error`: the connection is refused. -/
theorem Send_transport_error_witness :
    (Send {} (NewFcmNotifier (some (failWith (.transport "connection refused")))
        "key")).outcome
      = .returned {} (some (.transport "connection refused")) :=
  Send_transport_error {}
    (NewFcmNotifier (some (failWith (.transport "connection refused"))) "key")
    (Json.obj [("notification", Json.obj [])])
    { Method := "POST", URL := "https://fcm.googleapis.com/fcm/send", Header := [],
      Body := Json.obj [("notification", Json.obj [])] }
    (failWith (.transport "connection refused"))
    (.transport "connection refused")
    rfl rfl rfl rfl

/-- C9: when `json.Marshal` fails on the message, `Send` returns that error and
a zero-value result, and hands no request to the client. -/
theorem Send_marshal_error (env : Env) (fcmn : FcmNotifier) (e : GoError)
    (hm : Marshal env.heap fcmn.Message = .error e) :
    (Send env fcmn).outcome
      = .returned
          { Ok := false, StatusCode := 0, MulticastId := 0, Success := 0, Fail := 0,
            Canonical_ids := 0, Results := none, MsgId := 0, Err := "" }
          (some e) ∧
      (Send env fcmn).calls = [] := by
  simp [Send, hm]

/-- A run of `Send_marshal_error`: the data payload is a channel. -/
theorem Send_marshal_error_witness :
    (Send {}
        (SetData (NewFcmNotifier (some (answerWith { StatusCode := 200, Body := bodyAccepted }))
          "key") GoValue.chan)).outcome
      = .returned {} (some (.unsupportedType "chan")) ∧
      (Send {}
        (SetData (NewFcmNotifier (some (answerWith { StatusCode := 200, Body := bodyAccepted }))
          "key") GoValue.chan)).calls = [] :=
  Send_marshal_error {}
    (SetData (NewFcmNotifier (some (answerWith { StatusCode := 200, Body := bodyAccepted }))
      "key") GoValue.chan)
    (.unsupportedType "chan") rfl

/-! ## Builder: registration ids -/

/-- A valid slice shows as many elements as its length. -/
theorem read_length (h : Heap) (list : Option StringSlice) (hv : h.valid list) :
    (h.read list).length = sliceLen list := by
  cases list with
  | none => rfl
  | some s =>
    simp only [Heap.valid] at hv
    simp only [Heap.read, sliceLen, List.length_take, List.length_drop]
    omega

/-- Allocating an array does not change what an older slice shows. -/
theorem read_append (h : Heap) (a : List String) (list : Option StringSlice)
    (hv : h.valid list) : Heap.read (h ++ [a]) list = h.read list := by
  cases list with
  | none => rfl
  | some s =>
    simp only [Heap.valid] at hv
    simp only [Heap.read]
    rw [List.getD_append _ _ _ _ hv.1]

/-- Filling a fresh array from its start with as many values as it holds. -/
theorem writeRange_replicate (vs : List String) :
    writeRange (List.replicate vs.length "") 0 vs = vs := by
  simp [writeRange]

/-- The heap and the receiver after `SetRegistrationIds`: one new array holding
the list's elements, and the stored slice spanning it. -/
theorem SetRegistrationIds_eq (h : Heap) (fcmn : FcmNotifier) (list : Option StringSlice)
    (hv : h.valid list) :
    SetRegistrationIds h fcmn list =
      (h ++ [h.read list],
        { fcmn with Message :=
            { fcmn.Message with
                RegistrationIds :=
                  some { arr := h.length, off := 0, len := sliceLen list } } }) := by
  have hl := read_length h list hv
  have hw := writeRange_replicate (h.read list)
  rw [hl] at hw
  simp only [SetRegistrationIds, Heap.make, Heap.copy, read_append h _ list hv, Nat.min_self]
  rw [← hl, List.take_length, hl]
  simp [hw]

/-- C10: after `SetRegistrationIds list` the stored slice shows the elements of
`list` in the same order and has its length, and a later store through `list`
at any index does not change what the stored slice shows. -/
theorem SetRegistrationIds_copies (h : Heap) (fcmn : FcmNotifier)
    (list : Option StringSlice) (hv : h.valid list) :
    (SetRegistrationIds h fcmn list).1.read
        (SetRegistrationIds h fcmn list).2.Message.RegistrationIds = h.read list ∧
      sliceLen (SetRegistrationIds h fcmn list).2.Message.RegistrationIds = sliceLen list ∧
      ∀ (i : Nat) (v : String) (h1 : Heap),
        (SetRegistrationIds h fcmn list).1.store list i v = some h1 →
          h1.read (SetRegistrationIds h fcmn list).2.Message.RegistrationIds
            = h.read list := by
  rw [SetRegistrationIds_eq h fcmn list hv]
  have hl := read_length h list hv
  refine ⟨?_, rfl, ?_⟩
  · simp [Heap.read, ← hl]
  · intro i v h1 hs
    cases list with
    | none => simp [Heap.store] at hs
    | some s =>
      simp only [Heap.valid] at hv
      simp only [Heap.store] at hs
      split at hs
      · simp only [Option.some.injEq] at hs
        subst hs
        rw [List.set_append_left _ _ hv.1]
        simp [Heap.read, ← hl]
      · simp at hs

/-- A run of `SetRegistrationIds_copies`: the caller's list is `["a", "b"]`, then
its second element is overwritten. -/
theorem SetRegistrationIds_copies_witness :
    (SetRegistrationIds [["a", "b"]] {} (some { arr := 0, off := 0, len := 2 })).1.store
        (some { arr := 0, off := 0, len := 2 }) 1 "z" = some [["a", "z"], ["a", "b"]] ∧
      Heap.read [["a", "z"], ["a", "b"]]
        (SetRegistrationIds [["a", "b"]] {}
          (some { arr := 0, off := 0, len := 2 })).2.Message.RegistrationIds = ["a", "b"] :=
  ⟨by decide,
   (SetRegistrationIds_copies [["a", "b"]] {} (some { arr := 0, off := 0, len := 2 })
      ⟨by decide, by decide⟩).2.2 1 "z" [["a", "z"], ["a", "b"]] (by decide)⟩

/-! ## Builder: sequences of calls -/

/-- Where the encoder puts a string field keyed otherwise, no `k` is found. -/
theorem find_omitEmptyString (key v k : String) (hk : key ≠ k) :
    (omitEmptyString key v).find? (fun kv => kv.1 == k) = none := by
  unfold omitEmptyString
  split <;> simp [hk]

/-- Where the encoder puts a bool field keyed otherwise, no `k` is found. -/
theorem find_omitEmptyBool (key : String) (v : Bool) (k : String) (hk : key ≠ k) :
    (omitEmptyBool key v).find? (fun kv => kv.1 == k) = none := by
  unfold omitEmptyBool
  split <;> simp [hk]

/-- Where the encoder puts an int field keyed otherwise, no `k` is found. -/
theorem find_omitEmptyInt (key : String) (v : Int) (k : String) (hk : key ≠ k) :
    (omitEmptyInt key v).find? (fun kv => kv.1 == k) = none := by
  unfold omitEmptyInt
  split <;> simp [hk]

/-- Where the encoder puts a slice field keyed otherwise, no `k` is found. -/
theorem find_omitEmptyStrings (h : Heap) (key : String) (v : Option StringSlice) (k : String)
    (hk : key ≠ k) : (omitEmptyStrings h key v).find? (fun kv => kv.1 == k) = none := by
  unfold omitEmptyStrings
  split <;> simp [hk]

/-- Where the encoder puts an interface field keyed otherwise, no `k` is found. -/
theorem find_omitEmptyInterface (key : String) (v : GoValue) (k : String)
    (d : List (String × Json)) (hd : omitEmptyInterface key v = .ok d) (hk : key ≠ k) :
    d.find? (fun kv => kv.1 == k) = none := by
  unfold omitEmptyInterface at hd
  split at hd
  · cases hd; rfl
  · split at hd
    · cases hd
    · cases hd; simp [hk]

/-- The `priority` member of an encoded message: absent when the field is empty,
the field's text otherwise. -/
theorem Marshal_member_priority (h : Heap) (m : FcmMsg) (j : Json)
    (hm : Marshal h m = .ok j) :
    j.member "priority" = if m.Priority = "" then none else some (Json.str m.Priority) := by
  unfold Marshal at hm
  split at hm
  · cases hm
  · rename_i data hd
    cases hm
    have h0 := find_omitEmptyInterface "data" m.Data "priority" data hd (by decide)
    have h1 := find_omitEmptyString "to" m.To "priority" (by decide)
    have h2 :=
      find_omitEmptyStrings h "registration_ids" m.RegistrationIds "priority" (by decide)
    have h3 := find_omitEmptyString "collapse_key" m.CollapseKey "priority" (by decide)
    have h4 := find_omitEmptyBool "content_available" m.ContentAvailable "priority" (by decide)
    have h5 := find_omitEmptyInt "time_to_live" m.TimeToLive "priority" (by decide)
    have h6 :=
      find_omitEmptyString "restricted_package_name" m.RestrictedPackageName "priority"
        (by decide)
    have h7 := find_omitEmptyBool "dry_run" m.DryRun "priority" (by decide)
    have h8 := find_omitEmptyString "condition" m.Condition "priority" (by decide)
    simp only [Json.member, List.find?_append, h0, h1, h2, h3, h4, h5, h6, h7, h8,
      Option.none_or, Option.or_none]
    by_cases hp : m.Priority = ""
    · simp [hp, omitEmptyString]
    · simp [hp, omitEmptyString]

/-- A call other than `SetHighPriority` leaves `Priority` as it was. -/
theorem apply_priority (m : Mutator) (st : Heap × FcmNotifier)
    (hm : m.isSetHighPriority = false) :
    (m.apply st).2.Message.Priority = st.2.Message.Priority := by
  cases m with
  | SetHighPriority => simp [Mutator.isSetHighPriority] at hm
  | SetTTL value => simp only [Mutator.apply, SetTTL]; split <;> rfl
  | _ => rfl

/-- Calls none of which is `SetHighPriority` leave `Priority` as it was. -/
theorem applyAll_priority (ms : List Mutator) :
    ∀ st : Heap × FcmNotifier, ms.all (fun m => !m.isSetHighPriority) = true →
      (applyAll ms st).2.Message.Priority = st.2.Message.Priority := by
  induction ms with
  | nil => intro st _; rfl
  | cons m ms ih =>
    intro st h
    simp only [List.all_cons, Bool.and_eq_true, Bool.not_eq_true'] at h
    simp only [applyAll]
    rw [ih _ h.2, apply_priority m st h.1]

/-- C11: when the message encodes after `SetHighPriority`, the object has the
member `priority` with the string `high`; when it encodes after any sequence of
the other setters on a new notifier, the object has no member `priority`. -/
theorem priority_key_iff_SetHighPriority (h : Heap) (fcmn : FcmNotifier) (ms : List Mutator)
    (client : Option Client) (apiKey : String) (j : Json) :
    (Marshal h (SetHighPriority fcmn).Message = .ok j →
      j.member "priority" = some (Json.str "high")) ∧
    (ms.all (fun m => !m.isSetHighPriority) = true →
      Marshal (applyAll ms (h, NewFcmNotifier client apiKey)).1
        (applyAll ms (h, NewFcmNotifier client apiKey)).2.Message = .ok j →
        j.member "priority" = none) := by
  constructor
  · intro hm
    rw [Marshal_member_priority _ _ _ hm]
    simp [SetHighPriority]
  · intro hms hm
    rw [Marshal_member_priority _ _ _ hm, applyAll_priority ms _ hms]
    simp [NewFcmNotifier]

/-- A run of `priority_key_iff_SetHighPriority`: a new notifier after
`SetHighPriority`, and after `SetTopic` and `SetTTL` only. -/
theorem priority_key_iff_SetHighPriority_witness :
    (Json.obj [("priority", Json.str "high"), ("notification", Json.obj [])]).member "priority"
        = some (Json.str "high") ∧
      (Json.obj [("to", Json.str "news"), ("notification", Json.obj []),
        ("time_to_live", Json.num "5")]).member "priority" = none :=
  ⟨(priority_key_iff_SetHighPriority [] (NewFcmNotifier none "key") [] none "key"
      (Json.obj [("priority", Json.str "high"), ("notification", Json.obj [])])).1 rfl,
   (priority_key_iff_SetHighPriority [] (NewFcmNotifier none "key")
      [Mutator.SetTopic "news", Mutator.SetTTL 5] none "key"
      (Json.obj [("to", Json.str "news"), ("notification", Json.obj []),
        ("time_to_live", Json.num "5")])).2 rfl rfl⟩

/-- C12: twelve setters hand back the receiver, `SetHighPriority` hands back
nothing, so a call chained on `SetHighPriority()` has nothing to be made on. -/
theorem SetHighPriority_has_no_result (m : Mutator) (st : Heap × FcmNotifier) :
    (m.result st = if m.isSetHighPriority then none else some (m.apply st).2) ∧
      Mutator.SetHighPriority.result st = none ∧
      chain [Mutator.SetHighPriority, Mutator.SetDryRun true] st = none ∧
      chain [Mutator.SetDryRun true, Mutator.SetHighPriority] st
        = some (st.1, SetHighPriority (SetDryRun st.2 true)) := by
  refine ⟨?_, rfl, rfl, rfl⟩
  cases m <;> rfl

/-- The stored slice after `SetRegistrationIds` shows the list's elements. -/
theorem read_stored (h : Heap) (list : Option StringSlice) (hv : h.valid list) :
    Heap.read (h ++ [h.read list]) (some { arr := h.length, off := 0, len := sliceLen list })
      = h.read list := by
  have hl := read_length h list hv
  simp [Heap.read, ← hl]

/-- C13: `SetTopic t` then `SetRegistrationIds l` and `SetRegistrationIds l` then
`SetTopic t` leave the same heap and the same notifier, in which `To` is `t` and
the stored slice shows the elements of `l`. -/
theorem SetTopic_SetRegistrationIds_commute (h : Heap) (fcmn : FcmNotifier) (t : String)
    (l : Option StringSlice) (hv : h.valid l) :
    applyAll [Mutator.SetTopic t, Mutator.SetRegistrationIds l] (h, fcmn)
        = applyAll [Mutator.SetRegistrationIds l, Mutator.SetTopic t] (h, fcmn) ∧
      (applyAll [Mutator.SetTopic t, Mutator.SetRegistrationIds l] (h, fcmn)).2.Message.To
        = t ∧
      (applyAll [Mutator.SetTopic t, Mutator.SetRegistrationIds l] (h, fcmn)).1.read
          (applyAll [Mutator.SetTopic t, Mutator.SetRegistrationIds l]
            (h, fcmn)).2.Message.RegistrationIds
        = h.read l := by
  refine ⟨rfl, rfl, ?_⟩
  simp only [applyAll, Mutator.apply]
  rw [SetRegistrationIds_eq h (SetTopic fcmn t) l hv]
  exact read_stored h l hv

/-- A run of `SetTopic_SetRegistrationIds_commute`: topic `news`, list `["a", "b"]`. -/
theorem SetTopic_SetRegistrationIds_commute_witness :
    applyAll [Mutator.SetTopic "news",
        Mutator.SetRegistrationIds (some { arr := 0, off := 0, len := 2 })] ([["a", "b"]], {})
      = applyAll [Mutator.SetRegistrationIds (some { arr := 0, off := 0, len := 2 }),
          Mutator.SetTopic "news"] ([["a", "b"]], {}) :=
  (SetTopic_SetRegistrationIds_commute [["a", "b"]] {} "news"
    (some { arr := 0, off := 0, len := 2 }) ⟨by decide, by decide⟩).1

/-! ## Send: the request and the receiver -/

/-- The receiver after `Send` is the receiver before it. -/
theorem Send_fcmn (env : Env) (fcmn : FcmNotifier) : (Send env fcmn).fcmn = fcmn := by
  unfold Send
  repeat' first | rfl | split | dsimp only

/-- C14: after `Send`, however it ends, `Message` and `ApiKey` are what they were,
and a second `Send` right after hands the client the same requests, bodies
included. -/
theorem Send_leaves_notifier (env : Env) (fcmn : FcmNotifier) :
    (Send env fcmn).fcmn.Message = fcmn.Message ∧
      (Send env fcmn).fcmn.ApiKey = fcmn.ApiKey ∧
      (Send env (Send env fcmn).fcmn).calls = (Send env fcmn).calls ∧
      (Send env (Send env fcmn).fcmn).calls.map Request.Body
        = (Send env fcmn).calls.map Request.Body := by
  rw [Send_fcmn]
  exact ⟨rfl, rfl, rfl, rfl⟩

/-- C15, as stated, fails for a notifier made with a nil client: its message
encodes and the request is built, but `fcmn.httpClient.Do` panics on the nil
pointer and no request is handed over. -/
theorem Send_nil_client_panics :
    Marshal [] (NewFcmNotifier none "key").Message
        = .ok (Json.obj [("notification", Json.obj [])]) ∧
      NewRequest (fun _ => none) "POST" "https://fcm.googleapis.com/fcm/send"
          (Json.obj [("notification", Json.obj [])])
        = .ok { Method := "POST", URL := "https://fcm.googleapis.com/fcm/send", Header := [],
                Body := Json.obj [("notification", Json.obj [])] } ∧
      (Send {} (NewFcmNotifier none "key")).outcome = .panicked ∧
      (Send {} (NewFcmNotifier none "key")).calls = [] := by
  exact ⟨rfl, rfl, rfl, rfl⟩

/-- C15, amended: for a notifier with a client, whose message encodes and whose
request is built, `Send` hands the client exactly one request: a POST to
`FcmServiceUrl` with `Authorization` set to `key=` followed by the key,
`Content-Type` set to `application/json`, and the encoded message as body. -/
theorem Send_posts_one_request (env : Env) (fcmn : FcmNotifier) (body : Json)
    (req : Request) (client : Client)
    (hm : Marshal env.heap fcmn.Message = .ok body)
    (hq : NewRequest env.urlParse "POST" env.FcmServiceUrl body = .ok req)
    (hc : fcmn.httpClient = some client) :
    ∃ sent, (Send env fcmn).calls = [sent] ∧
      sent.Method = "POST" ∧ sent.URL = env.FcmServiceUrl ∧
      headerGet sent.Header "Authorization" = some ("key=" ++ fcmn.ApiKey) ∧
      headerGet sent.Header "Content-Type" = some "application/json" ∧
      sent.Body = body := by
  have hreq :
      req = { Method := "POST", URL := env.FcmServiceUrl, Header := [], Body := body } := by
    unfold NewRequest at hq
    split at hq
    · cases hq
    · cases hq; rfl
  refine ⟨(req.setHeader "Authorization" ("key=" ++ fcmn.ApiKey)).setHeader
      "Content-Type" "application/json", ?_, ?_⟩
  · unfold Send
    simp only [hm, hq, hc]
    repeat' first | rfl | split
  · subst hreq
    simp [Request.setHeader, headerSet, headerGet]

/-- A run of `Send_posts_one_request`: a new notifier with key `key` and a client
that answers 200. -/
theorem Send_posts_one_request_witness :
    ∃ sent,
      (Send {} (NewFcmNotifier (some (answerWith { StatusCode := 200, Body := bodyAccepted }))
          "key")).calls = [sent] ∧
        sent.Method = "POST" ∧ sent.URL = "https://fcm.googleapis.com/fcm/send" ∧
        headerGet sent.Header "Authorization" = some ("key=" ++ "key") ∧
        headerGet sent.Header "Content-Type" = some "application/json" ∧
        sent.Body = Json.obj [("notification", Json.obj [])] :=
  Send_posts_one_request {}
    (NewFcmNotifier (some (answerWith { StatusCode := 200, Body := bodyAccepted })) "key")
    (Json.obj [("notification", Json.obj [])])
    { Method := "POST", URL := "https://fcm.googleapis.com/fcm/send", Header := [],
      Body := Json.obj [("notification", Json.obj [])] }
    (answerWith { StatusCode := 200, Body := bodyAccepted })
    rfl rfl rfl

/-! ## Builder: invariant, frame, construction -/

/-- A call keeps the time to live at or below `MaxTTL`. -/
theorem apply_ttl (m : Mutator) (st : Heap × FcmNotifier)
    (h : st.2.Message.TimeToLive ≤ MaxTTL) : (m.apply st).2.Message.TimeToLive ≤ MaxTTL := by
  cases m with
  | SetTTL value =>
    simp only [Mutator.apply, SetTTL]
    split
    · exact le_refl _
    · simpa using (by omega : value ≤ MaxTTL)
  | _ => exact h

/-- A sequence of calls keeps the time to live at or below `MaxTTL`. -/
theorem applyAll_ttl (ms : List Mutator) :
    ∀ st : Heap × FcmNotifier, st.2.Message.TimeToLive ≤ MaxTTL →
      (applyAll ms st).2.Message.TimeToLive ≤ MaxTTL := by
  induction ms with
  | nil => intro st h; exact h
  | cons m ms ih => intro st h; exact ih _ (apply_ttl m st h)

/-- C16: a new notifier has time to live 0, and after any sequence of setter
calls on it the time to live is at most 2419200. -/
theorem TimeToLive_le_MaxTTL (ms : List Mutator) (h : Heap) (client : Option Client)
    (apiKey : String) :
    (NewFcmNotifier client apiKey).Message.TimeToLive = 0 ∧
      (applyAll ms (h, NewFcmNotifier client apiKey)).2.Message.TimeToLive ≤ 2419200 :=
  ⟨rfl, applyAll_ttl ms _ (show (0 : Int) ≤ MaxTTL by decide)⟩

/-- A call leaves every slot but its own as it was. -/
theorem mutator_frame (m : Mutator) (st : Heap × FcmNotifier) (s : Slot)
    (hs : s ≠ m.slot) : s.same st.2 (m.apply st).2 := by
  cases m <;> cases s <;>
    first
    | exact absurd rfl hs
    | rfl
    | (simp only [Mutator.apply, SetTTL, Slot.same]; split <;> rfl)

/-- A call other than `SetRegistrationIds` leaves the heap as it was. -/
theorem mutator_heap (m : Mutator) (st : Heap × FcmNotifier)
    (hs : m.slot ≠ Slot.RegistrationIds) : (m.apply st).1 = st.1 := by
  cases m <;> first | exact absurd rfl hs | rfl

/-- C17: a setter call leaves every slot other than its own unchanged (the other
fields of the message and of the notification, the key, the client), only
`SetRegistrationIds` touches the heap, which it extends by one array, and after
the call the setter's own field holds the value given: the list's elements for
`SetRegistrationIds`, `high` for `SetHighPriority`, the clamped value for
`SetTTL`. -/
theorem setters_write_only_their_field (h : Heap) (fcmn : FcmNotifier) (m : Mutator)
    (s : Slot) (value : String) (flag : Bool) (data : GoValue) (ttl : Int)
    (list : Option StringSlice) (hs : s ≠ m.slot) (hv : h.valid list) :
    s.same fcmn (m.apply (h, fcmn)).2 ∧
    (SetTTL fcmn ttl).Message.TimeToLive = (if ttl > 2419200 then 2419200 else ttl) ∧
    (SetRegistrationIds h fcmn list).1.read
        (SetRegistrationIds h fcmn list).2.Message.RegistrationIds = h.read list ∧
    (SetRegistrationIds h fcmn list).1 = h ++ [h.read list] ∧
    (m.slot ≠ Slot.RegistrationIds → (m.apply (h, fcmn)).1 = h) ∧
    (SetTopic fcmn value).Message.To = value ∧
    (SetTitle fcmn value).Message.Notification.Title = value ∧
    (SetBody fcmn value).Message.Notification.Body = value ∧
    (SetIcon fcmn value).Message.Notification.Icon = value ∧
    (SetCollapseKey fcmn value).Message.CollapseKey = value ∧
    (SetCondition fcmn value).Message.Condition = value ∧
    (SetContentAvailable fcmn flag).Message.ContentAvailable = flag ∧
    (SetData fcmn data).Message.Data = data ∧
    (SetDryRun fcmn flag).Message.DryRun = flag ∧
    (SetHighPriority fcmn).Message.Priority = "high" ∧
    (SetRestrictedPackageName fcmn value).Message.RestrictedPackageName = value := by
  refine ⟨mutator_frame m (h, fcmn) s hs, ?_, ?_, ?_, mutator_heap m (h, fcmn),
    rfl, rfl, rfl, rfl, rfl, rfl, rfl, rfl, rfl, rfl, rfl⟩
  · unfold SetTTL MaxTTL
    split <;> rfl
  · rw [SetRegistrationIds_eq h fcmn list hv]
    exact read_stored h list hv
  · rw [SetRegistrationIds_eq h fcmn list hv]

/-- A run of `setters_write_only_their_field`: `SetTTL 3000000` leaves `To` alone
and stores 2419200; `SetRegistrationIds` of the list `["a", "b"]` stores these. -/
theorem setters_write_only_their_field_witness :
    Slot.To.same (SetTopic {} "news")
        ((Mutator.SetTTL 3000000).apply ([["a", "b"]], SetTopic {} "news")).2 ∧
      (SetTTL (SetTopic {} "news") 3000000).Message.TimeToLive
        = (if (3000000 : Int) > 2419200 then 2419200 else 3000000) ∧
      (SetRegistrationIds [["a", "b"]] (SetTopic {} "news")
          (some { arr := 0, off := 0, len := 2 })).1.read
        (SetRegistrationIds [["a", "b"]] (SetTopic {} "news")
          (some { arr := 0, off := 0, len := 2 })).2.Message.RegistrationIds
        = Heap.read [["a", "b"]] (some { arr := 0, off := 0, len := 2 }) :=
  (fun H => ⟨H.1, H.2.1, H.2.2.1⟩)
    (setters_write_only_their_field [["a", "b"]] (SetTopic {} "news") (Mutator.SetTTL 3000000)
      Slot.To "v" true GoValue.nil 3000000 (some { arr := 0, off := 0, len := 2 })
      (by decide) ⟨by decide, by decide⟩)

/-- C18: `NewFcmNotifier client apiKey` holds the key and the client, and every
field of its message is at its zero value. -/
theorem NewFcmNotifier_empty (client : Option Client) (apiKey : String) :
    (NewFcmNotifier client apiKey).ApiKey = apiKey ∧
    (NewFcmNotifier client apiKey).httpClient = client ∧
    (NewFcmNotifier client apiKey).Message.Data = GoValue.nil ∧
    (NewFcmNotifier client apiKey).Message.To = "" ∧
    (NewFcmNotifier client apiKey).Message.RegistrationIds = none ∧
    (NewFcmNotifier client apiKey).Message.CollapseKey = "" ∧
    (NewFcmNotifier client apiKey).Message.Priority = "" ∧
    (NewFcmNotifier client apiKey).Message.Notification
      = { Title := "", Body := "", Icon := "", Sound := "", Badge := "", Tag := "",
          Color := "", ClickAction := "", BodyLocKey := "", BodyLocArgs := "",
          TitleLocKey := "", TitleLocArgs := "" } ∧
    (NewFcmNotifier client apiKey).Message.ContentAvailable = false ∧
    (NewFcmNotifier client apiKey).Message.TimeToLive = 0 ∧
    (NewFcmNotifier client apiKey).Message.RestrictedPackageName = "" ∧
    (NewFcmNotifier client apiKey).Message.DryRun = false ∧
    (NewFcmNotifier client apiKey).Message.Condition = "" :=
  ⟨rfl, rfl, rfl, rfl, rfl, rfl, rfl, rfl, rfl, rfl, rfl, rfl, rfl⟩

end FcmNotify
